import Mathlib

/-!
Shallow embedding of the Lab Record Generator service (src/main.py) and
verification of its specification claims.

The program is a small HTTP service with three operations:
upload of a college logo (`upload_logo`), generation of a docx lab record
(`generate_docx`), and a status/health query.  The embedding below models

* the string helpers the source uses (`str.zfill`, `str.split('.')[-1].lower()`),
* the request data model (`Experiment`, `RecordData`),
* the on-disk state touched by the service (a filesystem abstraction `FS`),
* the logo upload operation including its exception handling,
* the QR-code image pipeline (`create_qr_code`),
* the document structure produced by `generate_docx`, and
* the file-effect behaviour of `generate_docx` (temp QR files, output file,
  cleanup on success and failure paths).

External libraries (PIL, qrcode, python-docx) are modelled as abstract
parameters or as document-structure constructors; the control flow and all
data placements are translated directly from src/main.py.
-/

namespace LabRecord

/-! ### String helpers -/

/-- Model of Python `str.zfill(width)` for sign-free strings: left-pad with
the character 0 up to `width`.  The source only ever applies it to
`str(idx + 1)`, which never carries a sign. -/
def zfill (width : Nat) (s : String) : String :=
  if width ≤ s.length then s
  else String.mk (List.replicate (width - s.length) '0' ++ s.data)

/-- Model of Python `s.split('.')` at the character-list level: split on
every occurrence of the dot, keeping empty segments, never returning an
empty list (matching CPython semantics). -/
def splitDot : List Char → List (List Char)
  | [] => [[]]
  | c :: cs =>
    if c = '.' then [] :: splitDot cs
    else
      match splitDot cs with
      | t :: ts => (c :: t) :: ts
      | [] => [[c]]

/-- Model of `file.filename.split('.')[-1].lower()` from src/main.py line 97:
the segment after the last dot (the whole name when there is no dot),
lower-cased. -/
def ext_of (filename : String) : String :=
  String.mk (((splitDot filename.data).getLast?.getD []).map Char.toLower)

/-- Model of Python `s.startswith(pre)`. -/
def pyStartsWith (s pre : String) : Bool :=
  pre.data.isPrefixOf s.data

/-! ### Request data model (src/main.py lines 29-38) -/

/-- Mirror of the pydantic model `Experiment`: title, date (defaulting to the
empty string) and github link. -/
structure Experiment where
  title : String
  date : String := ""
  github : String
deriving DecidableEq, Repr

/-- Mirror of the pydantic model `RecordData`. -/
structure RecordData where
  course_title : String
  student_name : String
  register_number : String
  experiments : List Experiment
deriving DecidableEq, Repr

/-! ### Filesystem abstraction

The service works in a single working directory; we model the directory as
the set of file names present, as a boolean-valued function. -/

/-- Filesystem state: which file names currently exist. -/
def FS : Type := String → Bool

/-- Check whether `n` exists, modelling `os.path.exists(n)`. -/
def FS.hasFile (fs : FS) (n : String) : Bool := fs n

/-- Effect of `open(n, "wb")` followed by a write: the file exists afterwards. -/
def FS.write (fs : FS) (n : String) : FS :=
  fun m => if m = n then true else fs m

/-- Effect of `os.remove(n)`. -/
def FS.removeFile (fs : FS) (n : String) : FS :=
  fun m => if m = n then false else fs m

/-- An empty working directory. -/
def FS.emptyFS : FS := fun _ => false

/-! ### Logo upload (src/main.py lines 88-118) -/

/-- An incoming multipart upload.  `decodable` abstracts whether
`PIL.Image.open` can decode the uploaded bytes; `pil_msg` is the message of
the PIL exception raised when it cannot. -/
structure UploadedFile where
  filename : String
  content_type : String
  decodable : Bool
  pil_msg : String

/-- Python exceptions that can be raised inside the `try` block of
`upload_logo`: a FastAPI `HTTPException`, or a PIL decoding error. -/
inductive PyExc where
  | http (status : Nat) (detail : String)
  | pil (msg : String)
deriving DecidableEq, Repr

/-- Model of Python `str(e)`.  Starlette defines
`HTTPException.__str__` as the string `{status_code}: {detail}`. -/
def PyExc.str : PyExc → String
  | .http s d => Nat.repr s ++ ": " ++ d
  | .pil m => m

/-- Result surfaced to the HTTP caller by the upload endpoint. -/
inductive UploadResult where
  | ok (message filename : String)
  | err (status : Nat) (detail : String)
deriving DecidableEq, Repr

/-- Extension allow-list from src/main.py line 98. -/
def allowed_exts : List String := ["png", "jpg", "jpeg"]

/-- Body of the `try` block of `upload_logo` (src/main.py lines 92-116),
threading the filesystem state and returning either the `filename` field of
the success payload or the raised exception. -/
def upload_logo_try (fs : FS) (file : UploadedFile) : FS × Except PyExc String :=
  if pyStartsWith file.content_type "image/" = false then
    (fs, .error (.http 400 "File must be an image"))
  else
    let ext := ext_of file.filename
    if allowed_exts.contains ext = false then
      (fs, .error (.http 400 "Only PNG, JPG, JPEG files allowed"))
    else
      let logo_path := "college_logo." ++ ext
      let fs1 := fs.write logo_path
      if ["jpg", "jpeg"].contains ext then
        if file.decodable = false then
          (fs1, .error (.pil file.pil_msg))
        else
          let fs2 := (fs1.write "college_logo.png").removeFile logo_path
          (fs2, .ok "college_logo.png")
      else
        (fs1, .ok logo_path)

/-- Full model of the `upload_logo` endpoint: the `except Exception` handler
(src/main.py lines 117-118) catches every exception raised in the body,
including the `HTTPException(400, ...)` validation failures, and re-raises
`HTTPException(500, "Error uploading logo: " + str(e))`. -/
def upload_logo (fs : FS) (file : UploadedFile) : FS × UploadResult :=
  match upload_logo_try fs file with
  | (fs1, .ok name) => (fs1, .ok "Logo uploaded successfully" name)
  | (fs1, .error e) => (fs1, .err 500 ("Error uploading logo: " ++ e.str))

/-! ### QR code image generation (src/main.py lines 40-61)

`create_qr_code` builds a QR code with the `qrcode` library
(version=1, error correction L, box_size=10, border=2, fit=True),
renders it to a PIL image, resizes it to `(size, size)` with LANCZOS
resampling, and encodes it to PNG bytes.  The two external libraries are
modelled as an explicit bundle of abstract functions `QrLib`; the pipeline
wiring is translated from the source. -/

/-- Raster image: dimensions in pixels plus abstract pixel contents. -/
structure Img where
  width : Nat
  height : Nat
  pix : Nat → Nat → Nat

/-- Abstract model of the external `qrcode` and PIL capabilities used by
`create_qr_code`.  `bestVersion` is the symbol version chosen by
`qr.make(fit=True)` for the payload; `modulePix` the rendered module
pattern; `resize` the PIL LANCZOS resampler; `encodePNG` the PNG writer. -/
structure QrLib where
  bestVersion : String → Nat
  modulePix : String → Nat → Nat → Nat
  resize : Img → Nat → Nat → Img
  encodePNG : Img → List Nat

/-- Ambient process state visible to a Python function at call time
(working directory contents and an invocation counter).  The body of
`create_qr_code` reads none of it; passing it explicitly lets us state
determinism across invocations. -/
structure Env where
  fs : FS
  tick : Nat

/-- Module count of a QR symbol of version `v` (21 + 4 per version step). -/
def qrModules (lib : QrLib) (url : String) : Nat :=
  21 + 4 * (lib.bestVersion url - 1)

/-- Natural rendering of the QR code before resizing: box_size=10 pixels per
module and a quiet border of 2 modules on each side (src/main.py lines 42-51). -/
def qr_natural_image (lib : QrLib) (url : String) : Img :=
  { width := (qrModules lib url + 2 * 2) * 10
    height := (qrModules lib url + 2 * 2) * 10
    pix := lib.modulePix url }

/-- Image after `img.resize((size, size), Image.Resampling.LANCZOS)`
(src/main.py line 54). -/
def qr_resized (lib : QrLib) (url : String) (size : Nat) : Img :=
  lib.resize (qr_natural_image lib url) size size

/-- Model of `create_qr_code(url, size)`: the returned PNG byte stream.
The `env` argument is the ambient process state at invocation time; the
source reads none of it. -/
def create_qr_code (lib : QrLib) (url : String) (size : Nat) (env : Env) : List Nat :=
  lib.encodePNG (qr_resized lib url size)

/-! ### Document structure produced by `generate_docx` (src/main.py lines 120-291)

The python-docx API is modelled by the block/cell structures below; the
sequence of blocks and the cell contents are translated from the source. -/

/-- Paragraph alignment. -/
inductive Align where
  | left
  | center
  | right
deriving DecidableEq, Repr

/-- A table cell: its visible text, the alignment of its first paragraph and
whether a picture run was embedded in it. -/
structure Cell where
  text : String
  align : Align
  hasImage : Bool
deriving DecidableEq, Repr

/-- A block-level element of the generated document. -/
inductive Block where
  | para (text : String) (align : Align) (bold : Bool)
  | logo (file : String)
  | table (rows : List (List Cell))
  | details (nameText regText dateText signText : String)
deriving DecidableEq, Repr

/-- Blank paragraph emitted by `doc.add_paragraph()` with no arguments. -/
def spacerBlock : Block := .para "" .left false

/-- Test whether a block is a blank spacer paragraph. -/
def isSpacer : Block → Bool
  | .para t .left false => t == ""
  | _ => false

/-- Header labels of the experiment table (src/main.py line 167). -/
def headers : List String :=
  ["Exp", "Date", "Name of The Experiment", "QR Code", "Mark", "Signature"]

/-- Header row: each label centered and without an image
(src/main.py lines 168-183). -/
def headerRow : List Cell :=
  headers.map fun h => { text := h, align := .center, hasImage := false }

/-- Data row for the experiment at 0-based index `idx`
(src/main.py lines 194-230): ordinal `str(idx+1).zfill(2)` centered, the
date (empty string when absent), title plus two line breaks plus the github
link, the embedded QR image, and empty mark and signature cells. -/
def dataRow (idx : Nat) (e : Experiment) : List Cell :=
  [ { text := zfill 2 (Nat.repr (idx + 1)), align := .center, hasImage := false },
    { text := if e.date == "" then "" else e.date, align := .left, hasImage := false },
    { text := e.title ++ "\n\n" ++ e.github, align := .left, hasImage := false },
    { text := "", align := .center, hasImage := true },
    { text := "", align := .left, hasImage := false },
    { text := "", align := .left, hasImage := false } ]

/-- Data rows for the experiments starting at index `idx`, mirroring
`for idx, exp in enumerate(data.experiments)`. -/
def dataRows (idx : Nat) : List Experiment → List (List Cell)
  | [] => []
  | e :: es => dataRow idx e :: dataRows (idx + 1) es

/-- The experiment table: `doc.add_table(rows=len(experiments)+1, cols=6)`
followed by filling the header row and one data row per experiment
(src/main.py lines 161-235). -/
def buildTable (exps : List Experiment) : List (List Cell) :=
  headerRow :: dataRows 0 exps

/-- Logo file names checked by `generate_docx`, in source order
(src/main.py line 135). -/
def logo_files : List String :=
  ["college_logo.png", "college_logo.jpg", "college_logo.jpeg"]

/-- Logo resolution: the `for logo_file in logo_files: if os.path.exists: ... break`
loop returns the first existing candidate (src/main.py lines 134-145). -/
def resolveLogo (fs : FS) : Option String :=
  logo_files.find? fs.hasFile

/-- Confirmation statement text (src/main.py lines 243-245). -/
def confirmText : String :=
  "I confirm that the experiments and GitHub links provided are entirely my own work."

/-- Blocks emitted after the (optional) logo: title paragraph, spacer, the
experiment table, two spacers, the bold confirmation paragraph, a spacer and
the borderless 2 by 2 details table (src/main.py lines 151-287). -/
def bodyBlocks (data : RecordData) : List Block :=
  [ Block.para data.course_title .center true,
    spacerBlock,
    Block.table (buildTable data.experiments),
    spacerBlock,
    spacerBlock,
    Block.para confirmText .left true,
    spacerBlock,
    Block.details ("Name: " ++ data.student_name)
      ("Register Number: " ++ data.register_number)
      "Date:" "Learner\x27s Signature:" ]

/-- Full block sequence of the generated document: when one of the logo
files exists a centered logo paragraph and a blank spacer come first
(src/main.py lines 134-149). -/
def assembleDoc (fs : FS) (data : RecordData) : List Block :=
  (match resolveLogo fs with
   | some f => [Block.logo f, spacerBlock]
   | none => []) ++ bodyBlocks data

/-! ### File effects of `generate_docx` (src/main.py lines 120-320)

During generation the endpoint writes one temporary QR image per data row
(`qr_{idx}.png`, lines 216-218, tracked in the `qr_images` list, line 219),
writes the output document (`{register_number}_Lab_Record.docx`, lines
290-291) and finally deletes the tracked QR files, both on the success path
(lines 300-306) and in the `except` handler (lines 310-320), each removal
individually guarded by `try: ... except: pass`.

To verify the cleanup claims we run the endpoint under an injected fault
describing which statement (if any) raises, at the granularity of the
statements with filesystem effects.  `rf` (remove-fails) tells which
individual `os.remove` calls raise. -/

/-- Name of the temporary QR image for row `idx` (src/main.py line 216). -/
def qr_filename (idx : Nat) : String :=
  "qr_" ++ Nat.repr idx ++ ".png"

/-- Name of the generated document (src/main.py line 290). -/
def output_filename (data : RecordData) : String :=
  data.register_number ++ "_Lab_Record.docx"

/-- Injected fault: which statement of `generate_docx` raises, if any.
`preTable` covers failures before the row loop (margins, logo embedding,
title, table creation — before `qr_images = []` has created any file);
`makeQr`, `openQr`, `writeQr`, `embedQr` are failures inside the loop body
for a given row (during `create_qr_code`, during `open` before the file is
created, during `f.write` after `open` created the file, and during the
cell/picture operations after the file was appended to `qr_images`);
`postTable` covers failures after the loop and before `doc.save` wrote the
output; `afterSave` covers failures after the output file was written. -/
inductive Fault where
  | ok
  | preTable
  | makeQr (row : Nat)
  | openQr (row : Nat)
  | writeQr (row : Nat)
  | embedQr (row : Nat)
  | postTable
  | afterSave
deriving DecidableEq, Repr

/-- Outcome of one loop iteration under a fault. -/
inductive RowStep where
  | proceed
  | failClean
  | failCreatedUntracked
  | failCreatedTracked
deriving DecidableEq, Repr

/-- Effect of the loop body for row `idx` under `fault`. -/
def classify (fault : Fault) (idx : Nat) : RowStep :=
  match fault with
  | .makeQr r => if r = idx then .failClean else .proceed
  | .openQr r => if r = idx then .failClean else .proceed
  | .writeQr r => if r = idx then .failCreatedUntracked else .proceed
  | .embedQr r => if r = idx then .failCreatedTracked else .proceed
  | _ => .proceed

/-- Run the row loop for `m` rows starting at row `idx`: returns the QR
files created on disk, the contents of the `qr_images` tracking list, and
whether the loop aborted with an exception. -/
def runRows (fault : Fault) : Nat → Nat → List String × List String × Bool
  | _, 0 => ([], [], false)
  | idx, m + 1 =>
    match classify fault idx with
    | .proceed =>
      let r := runRows fault (idx + 1) m
      (qr_filename idx :: r.1, qr_filename idx :: r.2.1, r.2.2)
    | .failClean => ([], [], true)
    | .failCreatedUntracked => ([qr_filename idx], [], true)
    | .failCreatedTracked => ([qr_filename idx], [qr_filename idx], true)

/-- Cleanup loop over the tracked QR files (src/main.py lines 300-306 and
313-318): for each file, if it exists remove it; a removal that raises
(`rf f = true`) leaves the file in place and is swallowed by
`except: pass`. -/
def cleanup (rf : String → Bool) (tracked : List String) (fs : FS) : FS :=
  tracked.foldl
    (fun acc f => if acc.hasFile f && !rf f then acc.removeFile f else acc) fs

/-- HTTP outcome of the generation endpoint: a `FileResponse` for the named
file, or an `HTTPException`. -/
inductive Outcome where
  | file (name : String)
  | err (status : Nat) (detail : String)
deriving DecidableEq, Repr

/-- Message of the exception raised by an injected fault (stands for
`str(e)` of whatever the underlying library raised). -/
def faultMsg : Fault → String
  | .ok => ""
  | .preTable => "pre-table failure"
  | .makeQr r => "qr encode failure at row " ++ Nat.repr r
  | .openQr r => "open failure at row " ++ Nat.repr r
  | .writeQr r => "write failure at row " ++ Nat.repr r
  | .embedQr r => "embed failure at row " ++ Nat.repr r
  | .postTable => "post-table failure"
  | .afterSave => "response failure"

/-- Detail string of the 500 error produced by the `except` handler
(src/main.py line 320). -/
def errDetail (fault : Fault) : String :=
  "Error: " ++ faultMsg fault

/-- Observable result of one run of `generate_docx`: final filesystem,
final `qr_images` tracking list, the QR files actually created during the
request, and the HTTP outcome. -/
structure GenResult where
  fs : FS
  tracked : List String
  created : List String
  outcome : Outcome

/-- Execution of the `generate_docx` endpoint under injected fault `fault`
and removal-failure oracle `rf`, starting from filesystem `fs`.  Mirrors
src/main.py lines 120-320: a failure before the loop reaches the `except`
handler with no `qr_images` in scope, so no cleanup runs; a failure in or
after the loop runs the cleanup loop over the tracked files; on success the
output document is written, the response is built, the tracked files are
removed and the response returned. -/
def run_generate (data : RecordData) (fault : Fault) (rf : String → Bool)
    (fs : FS) : GenResult :=
  if fault = .preTable then
    { fs := fs, tracked := [], created := [],
      outcome := .err 500 (errDetail .preTable) }
  else if (runRows fault 0 data.experiments.length).2.2 then
    { fs := cleanup rf (runRows fault 0 data.experiments.length).2.1
        ((runRows fault 0 data.experiments.length).1.foldl FS.write fs),
      tracked := (runRows fault 0 data.experiments.length).2.1,
      created := (runRows fault 0 data.experiments.length).1,
      outcome := .err 500 (errDetail fault) }
  else if fault = .postTable then
    { fs := cleanup rf (runRows fault 0 data.experiments.length).2.1
        ((runRows fault 0 data.experiments.length).1.foldl FS.write fs),
      tracked := (runRows fault 0 data.experiments.length).2.1,
      created := (runRows fault 0 data.experiments.length).1,
      outcome := .err 500 (errDetail fault) }
  else if fault = .afterSave then
    { fs := cleanup rf (runRows fault 0 data.experiments.length).2.1
        (((runRows fault 0 data.experiments.length).1.foldl FS.write fs).write
          (output_filename data)),
      tracked := (runRows fault 0 data.experiments.length).2.1,
      created := (runRows fault 0 data.experiments.length).1,
      outcome := .err 500 (errDetail fault) }
  else
    { fs := cleanup rf (runRows fault 0 data.experiments.length).2.1
        (((runRows fault 0 data.experiments.length).1.foldl FS.write fs).write
          (output_filename data)),
      tracked := (runRows fault 0 data.experiments.length).2.1,
      created := (runRows fault 0 data.experiments.length).1,
      outcome := .file (output_filename data) }

/-- Text of the ordinal cell of row `i` of the experiment table: first cell
of the row at table index `i`, when present. -/
def ordinalCellText (exps : List Experiment) (i : Nat) : Option String :=
  ((buildTable exps)[i]?).bind fun row => row.head?.map Cell.text

/-! ### Helper lemmas -/

theorem dataRows_length : ∀ (l : List Experiment) (idx : Nat),
    (dataRows idx l).length = l.length
  | [], _ => rfl
  | _ :: es, idx => by simp [dataRows, dataRows_length es (idx + 1)]

theorem mem_dataRows {row : List Cell} :
    ∀ (l : List Experiment) (idx : Nat), row ∈ dataRows idx l →
      ∃ i e, row = dataRow i e
  | [], _, h => by simp [dataRows] at h
  | e :: es, idx, h => by
    rcases List.mem_cons.mp h with h1 | h1
    · exact ⟨idx, e, h1⟩
    · exact mem_dataRows es (idx + 1) h1

theorem dataRows_getElem? : ∀ (l : List Experiment) (idx k : Nat),
    (dataRows idx l)[k]? = (l[k]?).map fun e => dataRow (idx + k) e
  | [], _, k => by simp [dataRows]
  | e :: es, idx, 0 => by simp [dataRows]
  | e :: es, idx, k + 1 => by
    have h : idx + 1 + k = idx + (k + 1) := by omega
    simp only [dataRows, List.getElem?_cons_succ,
      dataRows_getElem? es (idx + 1) k, h]

theorem zfill_two_of_lt100 : ∀ i : Nat, i < 100 →
    (zfill 2 (Nat.repr i)).length = 2 ∧
      zfill 2 (Nat.repr i) =
        String.mk [Nat.digitChar (i / 10), Nat.digitChar (i % 10)] := by
  decide

theorem toDigitsCore_length_lower (b : Nat) :
    ∀ (fuel n : Nat) (acc : List Char),
      acc.length + 1 ≤ (Nat.toDigitsCore b (fuel + 1) n acc).length := by
  intro fuel
  induction fuel with
  | zero =>
    intro n acc
    show acc.length + 1 ≤ (if n / b = 0
      then Nat.digitChar (n % b) :: acc
      else Nat.toDigitsCore b 0 (n / b) (Nat.digitChar (n % b) :: acc)).length
    by_cases h : n / b = 0
    · rw [if_pos h]; simp
    · rw [if_neg h]
      show acc.length + 1 ≤ (Nat.digitChar (n % b) :: acc).length
      simp
  | succ f ih =>
    intro n acc
    show acc.length + 1 ≤ (if n / b = 0
      then Nat.digitChar (n % b) :: acc
      else Nat.toDigitsCore b (f + 1) (n / b)
        (Nat.digitChar (n % b) :: acc)).length
    by_cases h : n / b = 0
    · rw [if_pos h]; simp
    · rw [if_neg h]
      exact le_trans (Nat.le_succ _)
        (ih (n / b) (Nat.digitChar (n % b) :: acc))

theorem two_le_repr_length {n : Nat} (h : 10 ≤ n) : 2 ≤ (Nat.repr n).length := by
  obtain ⟨m, rfl⟩ : ∃ m, n = m + 10 := ⟨n - 10, by omega⟩
  show 2 ≤ (Nat.toDigits 10 (m + 10)).asString.length
  have hne : ¬ (m + 10) / 10 = 0 := by omega
  show 2 ≤ (Nat.toDigitsCore 10 (m + 10 + 1) (m + 10) []).length
  simp only [Nat.toDigitsCore, hne, if_false]
  exact le_trans (by simp)
    (toDigitsCore_length_lower 10 (m + 9) ((m + 10) / 10) _)

theorem zfill_two_eq_self {s : String} (h : 2 ≤ s.length) : zfill 2 s = s := by
  unfold zfill
  rw [if_pos h]

/-! ### Claim C1 -/

/-- C1: for every valid RecordRequest with N experiments, the experiment
table in the generated document has exactly N + 1 rows (header plus one row
per experiment, including N = 0) and every row has exactly 6 cells. -/
theorem claim_c1 (fs : FS) (data : RecordData) :
    Block.table (buildTable data.experiments) ∈ assembleDoc fs data ∧
    (buildTable data.experiments).length = data.experiments.length + 1 ∧
    ∀ row ∈ buildTable data.experiments, row.length = 6 := by
  refine ⟨?_, ?_, ?_⟩
  · exact List.mem_append_right _ (by simp [bodyBlocks])
  · simp [buildTable, dataRows_length]
  · intro row hrow
    rcases List.mem_cons.mp hrow with h | h
    · subst h; decide
    · rcases mem_dataRows _ _ h with ⟨i, e, rfl⟩
      rfl

/-- Witness for C1 at the round-trip scenario request of the spec: a table
with 2 rows whose header row has 6 cells, inside the assembled document. -/
def data1 : RecordData :=
  { course_title := "Data Structures Lab"
    student_name := "Asha Rao"
    register_number := "21CS045"
    experiments := [{ title := "Stack Implementation", date := "2024-01-10",
                      github := "https://github.com/asha/stack" }] }

theorem claim_c1_witness :
    Block.table (buildTable data1.experiments) ∈ assembleDoc FS.emptyFS data1 ∧
    (buildTable data1.experiments).length = 2 ∧
    headerRow.length = 6 :=
  ⟨(claim_c1 FS.emptyFS data1).1, (claim_c1 FS.emptyFS data1).2.1,
    (claim_c1 FS.emptyFS data1).2.2 headerRow (by decide)⟩

/-! ### Claim C2 -/

/-- C2: the ordinal cell of the experiment at 1-based position `i` holds
`str(i).zfill(2)`, which for `i` in 1..99 is the zero-padded 2-digit decimal
rendering of `i`, and for `i ≥ 100` is the plain decimal rendering of `i`
(of at least 2 digits, unpadded). -/
theorem claim_c2 (exps : List Experiment) (i : Nat) (h1 : 1 ≤ i)
    (h2 : i - 1 < exps.length) :
    ordinalCellText exps i = some (zfill 2 (Nat.repr i)) ∧
    (i ≤ 99 → (zfill 2 (Nat.repr i)).length = 2 ∧
      zfill 2 (Nat.repr i) =
        String.mk [Nat.digitChar (i / 10), Nat.digitChar (i % 10)]) ∧
    (100 ≤ i → zfill 2 (Nat.repr i) = Nat.repr i) := by
  obtain ⟨idx, rfl⟩ : ∃ idx, i = idx + 1 := ⟨i - 1, by omega⟩
  have hlt : idx < exps.length := by omega
  refine ⟨?_, fun h99 => zfill_two_of_lt100 _ (by omega), fun h100 =>
    zfill_two_eq_self (two_le_repr_length (by omega))⟩
  obtain ⟨e, he⟩ : ∃ e, exps[idx]? = some e :=
    ⟨exps.get ⟨idx, hlt⟩, List.getElem?_eq_getElem hlt⟩
  show (((headerRow :: dataRows 0 exps)[idx + 1]?).bind
    fun row => row.head?.map Cell.text) = _
  rw [List.getElem?_cons_succ, dataRows_getElem?, he]
  simp [dataRow]

theorem claim_c2_witness :
    ordinalCellText data1.experiments 1 = some (zfill 2 (Nat.repr 1)) ∧
    (1 ≤ 99 → (zfill 2 (Nat.repr 1)).length = 2 ∧
      zfill 2 (Nat.repr 1) =
        String.mk [Nat.digitChar (1 / 10), Nat.digitChar (1 % 10)]) ∧
    (100 ≤ 1 → zfill 2 (Nat.repr 1) = Nat.repr 1) :=
  claim_c2 data1.experiments 1 (by decide) (by decide)

/-! ### Claim C6 -/

/-- C6: the code-image generator is deterministic.  The ambient process
state at call time is passed explicitly; the body of `create_qr_code` reads
none of it, so two invocations with the same payload and size yield
byte-identical output. -/
theorem claim_c6 (lib : QrLib) (url : String) (size : Nat) (env1 env2 : Env) :
    create_qr_code lib url size env1 = create_qr_code lib url size env2 :=
  rfl

/-! ### Claim C7 -/

/-- C7: under the PIL contract that `img.resize((w, h))` returns an image of
exactly the requested dimensions, the raster produced by `create_qr_code`
before PNG encoding is exactly `size × size`, for every payload and every
positive size, independent of the module grid chosen for the payload. -/
theorem claim_c7 (lib : QrLib) (url : String) (size : Nat)
    (hpos : 0 < size)
    (hresize : ∀ img w h,
      (lib.resize img w h).width = w ∧ (lib.resize img w h).height = h) :
    (qr_resized lib url size).width = size ∧
    (qr_resized lib url size).height = size :=
  ⟨(hresize _ _ _).1, (hresize _ _ _).2⟩

/-- Concrete instance of the external library bundle used to witness C7. -/
def testQrLib : QrLib :=
  { bestVersion := fun _ => 1
    modulePix := fun _ _ _ => 0
    resize := fun img w h => { width := w, height := h, pix := img.pix }
    encodePNG := fun _ => [] }

theorem claim_c7_witness :
    (qr_resized testQrLib "https://github.com/asha/stack" 150).width = 150 ∧
    (qr_resized testQrLib "https://github.com/asha/stack" 150).height = 150 :=
  claim_c7 testQrLib "https://github.com/asha/stack" 150 (by decide)
    (fun img w h => ⟨rfl, rfl⟩)

/-! ### Claim C3

The source raises `HTTPException(status_code=400, ...)` for a bad content
type or extension, but those raises happen inside the `try` block whose
`except Exception` clause catches every exception (FastAPI
`HTTPException` derives from `Exception`) and re-raises
`HTTPException(status_code=500, detail="Error uploading logo: " + str(e))`.
The validation failure is therefore surfaced as a 500 server error, not as
a 4xx client error. -/

/-- Upload whose content type is not an image class. -/
def nonImageUpload : UploadedFile :=
  { filename := "notes.txt", content_type := "text/plain",
    decodable := true, pil_msg := "" }

/-- Upload with an image content type but a disallowed extension. -/
def badExtUpload : UploadedFile :=
  { filename := "logo.gif", content_type := "image/gif",
    decodable := true, pil_msg := "" }

/-- C3 (refuting evaluation): a non-image content type and a disallowed
extension are both rejected, but the response the caller sees carries
status 500 — a server error, not a 4xx client error — because the
catch-all `except` re-wraps the `HTTPException(400, ...)`. -/
theorem claim_c3_eval :
    (upload_logo FS.emptyFS nonImageUpload).2 =
      UploadResult.err 500 "Error uploading logo: 400: File must be an image" ∧
    (upload_logo FS.emptyFS badExtUpload).2 =
      UploadResult.err 500
        "Error uploading logo: 400: Only PNG, JPG, JPEG files allowed" := by
  exact ⟨rfl, rfl⟩

/-! ### Claim C10 -/

theorem splitDot_of_no_dot : ∀ l : List Char, ¬ '.' ∈ l → splitDot l = [l]
  | [], _ => rfl
  | c :: cs, h => by
    have hc : ¬ c = '.' := fun hh => h (hh ▸ List.mem_cons_self c cs)
    have hcs : ¬ '.' ∈ cs := fun hm => h (List.mem_cons_of_mem c hm)
    show (if c = '.' then [] :: splitDot cs
      else match splitDot cs with
        | t :: ts => (c :: t) :: ts
        | [] => [[c]]) = [c :: cs]
    rw [if_neg hc, splitDot_of_no_dot cs hcs]

/-- Derived extension of a dot-free filename: the whole lowercased name. -/
theorem ext_of_no_dot {s : String} (h : ¬ '.' ∈ s.data) :
    ext_of s = String.mk (s.data.map Char.toLower) := by
  unfold ext_of
  rw [splitDot_of_no_dot s.data h]
  rfl

/-- C10: for an upload whose filename contains no dot, the derived
extension is the entire lowercased filename; with an image content type the
upload is rejected with the disallowed-extension message (and no file is
written) unless the lowercased filename is exactly png, jpg or jpeg, in
which case the upload proceeds and stores the canonical file. -/
theorem claim_c10 (fs : FS) (file : UploadedFile)
    (hdot : ¬ '.' ∈ file.filename.data)
    (himg : pyStartsWith file.content_type "image/" = true) :
    ext_of file.filename = String.mk (file.filename.data.map Char.toLower) ∧
    (allowed_exts.contains (String.mk (file.filename.data.map Char.toLower))
        = false →
      (upload_logo fs file).2 = UploadResult.err 500
        "Error uploading logo: 400: Only PNG, JPG, JPEG files allowed" ∧
      (upload_logo fs file).1 = fs) ∧
    (String.mk (file.filename.data.map Char.toLower) = "png" →
      (upload_logo fs file).2 =
        UploadResult.ok "Logo uploaded successfully" "college_logo.png") ∧
    (String.mk (file.filename.data.map Char.toLower) ∈ ["jpg", "jpeg"] →
      file.decodable = true →
      (upload_logo fs file).2 =
        UploadResult.ok "Logo uploaded successfully" "college_logo.png") := by
  have hext := ext_of_no_dot hdot
  refine ⟨hext, ?_, ?_, ?_⟩
  · intro hnc
    have hnc2 : ¬ String.mk (file.filename.data.map Char.toLower) ∈ allowed_exts := by
      simpa using hnc
    unfold upload_logo upload_logo_try
    simp [himg, hext, hnc2]
    rfl
  · intro hpng
    unfold upload_logo upload_logo_try
    simp [himg, hext, hpng, allowed_exts]
  · intro hmem hdec
    rcases List.mem_pair.mp hmem with hjj | hjj <;>
      · unfold upload_logo upload_logo_try
        simp [himg, hext, hjj, hdec, allowed_exts]

/-- Dot-free filename that is not an allowed extension. -/
def noDotUpload : UploadedFile :=
  { filename := "mylogo", content_type := "image/png",
    decodable := true, pil_msg := "" }

theorem claim_c10_witness :
    ext_of noDotUpload.filename =
      String.mk (noDotUpload.filename.data.map Char.toLower) ∧
    (upload_logo FS.emptyFS noDotUpload).2 = UploadResult.err 500
      "Error uploading logo: 400: Only PNG, JPG, JPEG files allowed" :=
  ⟨(claim_c10 FS.emptyFS noDotUpload (by decide) (by decide)).1,
    ((claim_c10 FS.emptyFS noDotUpload (by decide) (by decide)).2.1
      (by decide)).1⟩

/-! ### Claim C4

The claim holds for uploads arriving when no JPEG-variant logo file is
already on disk, but fails in general: a previously failed JPEG-variant
upload (validation passes, PIL cannot decode the bytes) leaves
`college_logo.jpeg` behind, and a later successful `.jpg` upload then ends
with two logo files on disk. -/

/-- Upload of a `.jpeg` file whose bytes PIL cannot decode: passes both
validation checks, writes `college_logo.jpeg`, then raises inside
`Image.open`, so the file is left behind. -/
def failedJpegUpload : UploadedFile :=
  { filename := "scan.jpeg", content_type := "image/jpeg",
    decodable := false, pil_msg := "cannot identify image file" }

/-- A well-formed `.jpg` upload. -/
def goodJpgUpload : UploadedFile :=
  { filename := "logo.jpg", content_type := "image/jpeg",
    decodable := true, pil_msg := "" }

/-- C4 counterexample: after a failed `.jpeg` upload, a subsequent fully
successful `.jpg` upload returns success and stores the canonical PNG, yet
the residual `college_logo.jpeg` file still exists — two logo files remain,
refuting the claim as stated. -/
theorem claim_c4_counterexample :
    (upload_logo (upload_logo FS.emptyFS failedJpegUpload).1 goodJpgUpload).2 =
      UploadResult.ok "Logo uploaded successfully" "college_logo.png" ∧
    (upload_logo (upload_logo FS.emptyFS failedJpegUpload).1
        goodJpgUpload).1.hasFile "college_logo.png" = true ∧
    (upload_logo (upload_logo FS.emptyFS failedJpegUpload).1
        goodJpgUpload).1.hasFile "college_logo.jpeg" = true := by
  exact ⟨rfl, rfl, rfl⟩

/-- C4 (amended): for every successful logo upload with extension jpg or
jpeg, provided the logo file of the other JPEG variant is not already on
disk, the store re-encodes to the canonical `college_logo.png`, removes the
originally written file, and afterwards exactly one canonical logo file
exists: the PNG is present and neither JPEG-variant file remains. -/
theorem claim_c4 (fs : FS) (file : UploadedFile)
    (himg : pyStartsWith file.content_type "image/" = true)
    (hext : ext_of file.filename = "jpg" ∨ ext_of file.filename = "jpeg")
    (hdec : file.decodable = true)
    (hjpg : ext_of file.filename = "jpg" →
      fs.hasFile "college_logo.jpeg" = false)
    (hjpeg : ext_of file.filename = "jpeg" →
      fs.hasFile "college_logo.jpg" = false) :
    (upload_logo fs file).2 =
      UploadResult.ok "Logo uploaded successfully" "college_logo.png" ∧
    (upload_logo fs file).1.hasFile "college_logo.png" = true ∧
    (upload_logo fs file).1.hasFile "college_logo.jpg" = false ∧
    (upload_logo fs file).1.hasFile "college_logo.jpeg" = false := by
  rcases hext with h | h
  · have hj := hjpg h
    unfold upload_logo upload_logo_try
    simp [himg, h, hdec, allowed_exts, FS.hasFile, FS.write, FS.removeFile]
    exact hj
  · have hj := hjpeg h
    unfold upload_logo upload_logo_try
    simp [himg, h, hdec, allowed_exts, FS.hasFile, FS.write, FS.removeFile]
    exact hj

theorem claim_c4_witness :
    (upload_logo FS.emptyFS goodJpgUpload).2 =
      UploadResult.ok "Logo uploaded successfully" "college_logo.png" ∧
    (upload_logo FS.emptyFS goodJpgUpload).1.hasFile "college_logo.png"
      = true ∧
    (upload_logo FS.emptyFS goodJpgUpload).1.hasFile "college_logo.jpg"
      = false ∧
    (upload_logo FS.emptyFS goodJpgUpload).1.hasFile "college_logo.jpeg"
      = false :=
  claim_c4 FS.emptyFS goodJpgUpload (by decide) (Or.inl (by decide))
    (by decide) (fun _ => rfl) (fun hh => absurd hh (by decide))

/-! ### Claim C5 -/

theorem countP_bodyBlocks (data : RecordData) :
    List.countP isSpacer (bodyBlocks data) = 4 := by
  simp [bodyBlocks, List.countP_cons, isSpacer, spacerBlock]

/-- C5: logo resolution checks the recognized names in the fixed priority
order png, jpg, jpeg and returns the first one present; when a logo
resolves the document starts with that logo block followed by one blank
spacer; when none resolves the document contains no logo block and one
fewer blank spacer paragraph (4 instead of 5). -/
theorem claim_c5 (fs : FS) (data : RecordData) :
    (resolveLogo fs =
      if fs.hasFile "college_logo.png" then some "college_logo.png"
      else if fs.hasFile "college_logo.jpg" then some "college_logo.jpg"
      else if fs.hasFile "college_logo.jpeg" then some "college_logo.jpeg"
      else none) ∧
    (∀ f, resolveLogo fs = some f →
      assembleDoc fs data = Block.logo f :: spacerBlock :: bodyBlocks data) ∧
    (resolveLogo fs = none →
      assembleDoc fs data = bodyBlocks data ∧
      (∀ f, ¬ Block.logo f ∈ assembleDoc fs data) ∧
      List.countP isSpacer (assembleDoc fs data) = 4) ∧
    ((resolveLogo fs).isSome = true →
      List.countP isSpacer (assembleDoc fs data) = 5) := by
  refine ⟨?_, ?_, ?_, ?_⟩
  · cases hpng : fs.hasFile "college_logo.png" <;>
      cases hjpg : fs.hasFile "college_logo.jpg" <;>
        cases hjpeg : fs.hasFile "college_logo.jpeg" <;>
          simp [resolveLogo, logo_files, List.find?, hpng, hjpg, hjpeg]
  · intro f hf
    unfold assembleDoc
    rw [hf]
    rfl
  · intro h0
    unfold assembleDoc
    rw [h0]
    refine ⟨rfl, ?_, countP_bodyBlocks data⟩
    intro f
    simp [bodyBlocks, spacerBlock]
  · intro hs
    rcases Option.isSome_iff_exists.mp hs with ⟨f, hf⟩
    unfold assembleDoc
    rw [hf]
    show List.countP isSpacer
      (Block.logo f :: spacerBlock :: bodyBlocks data) = 5
    simp [List.countP_cons, isSpacer, spacerBlock, countP_bodyBlocks data]

/-- Filesystem holding only the canonical PNG logo. -/
def fsPng : FS := FS.write FS.emptyFS "college_logo.png"

theorem claim_c5_witness :
    assembleDoc fsPng data1 =
      Block.logo "college_logo.png" :: spacerBlock :: bodyBlocks data1 ∧
    List.countP isSpacer (assembleDoc fsPng data1) = 5 :=
  ⟨(claim_c5 fsPng data1).2.1 "college_logo.png" (by decide),
    (claim_c5 fsPng data1).2.2.2 (by decide)⟩

/-! ### Claims C8 and C9: filesystem-effect lemmas -/

theorem hasFile_write_self (fs : FS) (n : String) :
    (fs.write n).hasFile n = true := by
  show (if n = n then true else fs n) = true
  simp

theorem hasFile_write_other {fs : FS} {n m : String} (h : ¬ m = n) :
    (fs.write n).hasFile m = fs.hasFile m := by
  show (if m = n then true else fs m) = fs m
  simp [h]

theorem hasFile_foldl_write {l : List String} {fs : FS} {f : String}
    (h : fs.hasFile f = true) : (l.foldl FS.write fs).hasFile f = true := by
  induction l generalizing fs with
  | nil => exact h
  | cons a as ih =>
    apply ih
    show (if f = a then true else fs f) = true
    by_cases hfa : f = a
    · simp [hfa]
    · simpa [hfa] using h

theorem cleanup_step_mono {rf : String → Bool} {fs : FS} {a f : String}
    (h : ((if fs.hasFile a && !rf a then fs.removeFile a else fs)).hasFile f
      = true) : fs.hasFile f = true := by
  by_cases hc : fs.hasFile a && !rf a
  · rw [if_pos hc] at h
    by_cases hfa : f = a
    · simpa [FS.hasFile, FS.removeFile, hfa] using h
    · simpa [FS.hasFile, FS.removeFile, hfa] using h
  · rwa [if_neg hc] at h

theorem cleanup_hasFile_mono {l : List String} {rf : String → Bool} {fs : FS}
    {f : String} (h : (cleanup rf l fs).hasFile f = true) :
    fs.hasFile f = true := by
  induction l generalizing fs with
  | nil => exact h
  | cons a as ih => exact cleanup_step_mono (ih h)

theorem cleanup_preserves_absent {l : List String} {rf : String → Bool}
    {fs : FS} {f : String} (h : fs.hasFile f = false) :
    (cleanup rf l fs).hasFile f = false := by
  cases hc : (cleanup rf l fs).hasFile f
  · rfl
  · exact absurd (cleanup_hasFile_mono hc) (by simp [h])

theorem cleanup_not_mem {l : List String} {rf : String → Bool} {fs : FS}
    {f : String} (h : ¬ f ∈ l) :
    (cleanup rf l fs).hasFile f = fs.hasFile f := by
  induction l generalizing fs with
  | nil => rfl
  | cons a as ih =>
    have hfa : ¬ f = a := fun hh => h (hh ▸ List.mem_cons_self a as)
    have has : ¬ f ∈ as := fun hm => h (List.mem_cons_of_mem a hm)
    show (cleanup rf as
      (if (fs.hasFile a && !rf a) = true then fs.removeFile a else fs)).hasFile f
      = fs.hasFile f
    rw [ih has]
    by_cases hc : (fs.hasFile a && !rf a) = true
    · rw [if_pos hc]
      show (if f = a then false else fs f) = fs f
      simp [hfa]
    · rw [if_neg hc]

theorem cleanup_removes {l : List String} {rf : String → Bool} {fs : FS}
    {f : String} (hmem : f ∈ l) (hrf : rf f = false) :
    (cleanup rf l fs).hasFile f = false := by
  induction l generalizing fs with
  | nil => exact absurd hmem (List.not_mem_nil f)
  | cons a as ih =>
    rcases List.mem_cons.mp hmem with h1 | h1
    · subst h1
      show (cleanup rf as
        (if (fs.hasFile f && !rf f) = true then fs.removeFile f else fs)).hasFile f
        = false
      by_cases hc : (fs.hasFile f && !rf f) = true
      · rw [if_pos hc]
        exact cleanup_preserves_absent (by simp [FS.hasFile, FS.removeFile])
      · rw [if_neg hc]
        have hf : fs.hasFile f = false := by
          cases hfs : fs.hasFile f
          · rfl
          · exact absurd (by simp [hfs, hrf]) hc
        exact cleanup_preserves_absent hf
    · exact ih h1

theorem runRows_names (fault : Fault) : ∀ (m idx : Nat) (f : String),
    f ∈ (runRows fault idx m).1 ∨ f ∈ (runRows fault idx m).2.1 →
    ∃ i, idx ≤ i ∧ i < idx + m ∧ f = qr_filename i
  | 0, idx, f, h => by simp [runRows] at h
  | m + 1, idx, f, h => by
    rcases hcl : classify fault idx with _ | _ | _ | _ <;>
      simp only [runRows, hcl] at h
    · rcases h with h1 | h1 <;> rcases List.mem_cons.mp h1 with h2 | h2
      · exact ⟨idx, Nat.le_refl idx, by omega, h2⟩
      · rcases runRows_names fault m (idx + 1) f (Or.inl h2) with ⟨i, hi1, hi2, hi3⟩
        exact ⟨i, by omega, by omega, hi3⟩
      · exact ⟨idx, Nat.le_refl idx, by omega, h2⟩
      · rcases runRows_names fault m (idx + 1) f (Or.inr h2) with ⟨i, hi1, hi2, hi3⟩
        exact ⟨i, by omega, by omega, hi3⟩
    · simp at h
    · rcases h with h1 | h1
      · exact ⟨idx, Nat.le_refl idx, by omega, by simpa using h1⟩
      · simp at h1
    · rcases h with h1 | h1 <;>
        exact ⟨idx, Nat.le_refl idx, by omega, by simpa using h1⟩

theorem output_ne_qr (data : RecordData) (i : Nat) :
    ¬ output_filename data = qr_filename i := by
  intro h
  have h2 : (output_filename data).data.getLast? =
      (qr_filename i).data.getLast? := by rw [h]
  have hl : (output_filename data).data.getLast? = some 'x' := by
    show (data.register_number ++ "_Lab_Record.docx").data.getLast? = some 'x'
    rw [String.data_append,
      List.getLast?_append_of_ne_nil _ (by decide)]
    decide
  have hr : (qr_filename i).data.getLast? = some 'g' := by
    show (("qr_" ++ Nat.repr i) ++ ".png").data.getLast? = some 'g'
    rw [String.data_append,
      List.getLast?_append_of_ne_nil _ (by decide)]
    decide
  rw [hl, hr] at h2
  exact absurd (Option.some.inj h2) (by decide)

/-! ### Claim C8 -/

/-- Outcome of a run, computed from data and fault alone: the removal
oracle and the starting filesystem play no part in it. -/
def genOutcome (data : RecordData) (fault : Fault) : Outcome :=
  if fault = .preTable then .err 500 (errDetail .preTable)
  else if (runRows fault 0 data.experiments.length).2.2 then
    .err 500 (errDetail fault)
  else if fault = .postTable then .err 500 (errDetail fault)
  else if fault = .afterSave then .err 500 (errDetail fault)
  else .file (output_filename data)

theorem run_generate_outcome (data : RecordData) (fault : Fault)
    (rf : String → Bool) (fs : FS) :
    (run_generate data fault rf fs).outcome = genOutcome data fault := by
  rw [run_generate]
  split
  next h1 => rw [genOutcome, if_pos h1]
  next h1 =>
    split
    next h2 => rw [genOutcome, if_neg h1, if_pos h2]
    next h2 =>
      split
      next h3 => rw [genOutcome, if_neg h1, if_neg h2, if_pos h3]
      next h3 =>
        split
        next h4 => rw [genOutcome, if_neg h1, if_neg h2, if_neg h3, if_pos h4]
        next h4 => rw [genOutcome, if_neg h1, if_neg h2, if_neg h3, if_neg h4]

theorem run_generate_shape (data : RecordData) (fault : Fault)
    (rf : String → Bool) (fs : FS) :
    (run_generate data fault rf fs).tracked = [] ∨
    ∃ X, (run_generate data fault rf fs).fs =
      cleanup rf (run_generate data fault rf fs).tracked X := by
  rw [run_generate]
  split
  · exact Or.inl rfl
  · split
    · exact Or.inr ⟨_, rfl⟩
    · split
      · exact Or.inr ⟨_, rfl⟩
      · split
        · exact Or.inr ⟨_, rfl⟩
        · exact Or.inr ⟨_, rfl⟩

/-- C8: on every successful document-generation request the output document
`{register_number}_Lab_Record.docx` is written and still exists after the
request completes (it is never deleted), and every file that disappeared
during the request is one of the per-row temporary QR images. -/
theorem claim_c8 (data : RecordData) (fault : Fault) (rf : String → Bool)
    (fs : FS) (nm : String)
    (hk : (run_generate data fault rf fs).outcome = Outcome.file nm) :
    nm = output_filename data ∧
    (run_generate data fault rf fs).fs.hasFile (output_filename data) = true ∧
    ∀ f, fs.hasFile f = true →
      (run_generate data fault rf fs).fs.hasFile f = false →
      ∃ i, i < data.experiments.length ∧ f = qr_filename i := by
  rw [run_generate_outcome] at hk
  by_cases h1 : fault = Fault.preTable
  · rw [genOutcome, if_pos h1] at hk
    exact absurd hk (by simp)
  · cases h2 : (runRows fault 0 data.experiments.length).2.2 with
    | true =>
      rw [genOutcome, if_neg h1, if_pos h2] at hk
      exact absurd hk (by simp)
    | false =>
      have h2n : ¬ (runRows fault 0 data.experiments.length).2.2 = true := by
        simp [h2]
      by_cases h3 : fault = Fault.postTable
      · rw [genOutcome, if_neg h1, if_neg h2n, if_pos h3] at hk
        exact absurd hk (by simp)
      · by_cases h4 : fault = Fault.afterSave
        · rw [genOutcome, if_neg h1, if_neg h2n, if_neg h3, if_pos h4] at hk
          exact absurd hk (by simp)
        · rw [genOutcome, if_neg h1, if_neg h2n, if_neg h3, if_neg h4] at hk
          have hnt : ¬ output_filename data ∈
              (runRows fault 0 data.experiments.length).2.1 := by
            intro hmem
            rcases runRows_names fault _ 0 _ (Or.inr hmem) with ⟨i, _, _, hqe⟩
            exact output_ne_qr data i hqe
          refine ⟨(Outcome.file.inj hk).symm, ?_, ?_⟩
          · rw [run_generate, if_neg h1, if_neg h2n, if_neg h3, if_neg h4]
            show (cleanup rf (runRows fault 0 data.experiments.length).2.1
              (((runRows fault 0 data.experiments.length).1.foldl FS.write
                fs).write (output_filename data))).hasFile
                (output_filename data) = true
            rw [cleanup_not_mem hnt, hasFile_write_self]
          · intro f hfs hgone
            rw [run_generate, if_neg h1, if_neg h2n, if_neg h3, if_neg h4]
              at hgone
            by_cases hmem : f ∈ (runRows fault 0 data.experiments.length).2.1
            · rcases runRows_names fault _ 0 _ (Or.inr hmem)
                with ⟨i, hi1, hi2, hi3⟩
              exact ⟨i, by omega, hi3⟩
            · exfalso
              have hgone2 : (cleanup rf
                  (runRows fault 0 data.experiments.length).2.1
                  (((runRows fault 0 data.experiments.length).1.foldl FS.write
                    fs).write (output_filename data))).hasFile f = false := hgone
              rw [cleanup_not_mem hmem] at hgone2
              by_cases hfo : f = output_filename data
              · rw [hfo, hasFile_write_self] at hgone2
                exact absurd hgone2 (by simp)
              · rw [hasFile_write_other hfo, hasFile_foldl_write hfs] at hgone2
                exact absurd hgone2 (by simp)

/-- Filesystem that already contains a stale `qr_0.png`. -/
def fsQr0 : FS := FS.write FS.emptyFS "qr_0.png"

theorem claim_c8_witness :
    "21CS045_Lab_Record.docx" = output_filename data1 ∧
    (run_generate data1 Fault.ok (fun _ => false) fsQr0).fs.hasFile
      (output_filename data1) = true ∧
    (∃ i, i < data1.experiments.length ∧ "qr_0.png" = qr_filename i) :=
  ⟨(claim_c8 data1 Fault.ok (fun _ => false) fsQr0 "21CS045_Lab_Record.docx"
      (by decide)).1,
   (claim_c8 data1 Fault.ok (fun _ => false) fsQr0 "21CS045_Lab_Record.docx"
      (by decide)).2.1,
   (claim_c8 data1 Fault.ok (fun _ => false) fsQr0 "21CS045_Lab_Record.docx"
      (by decide)).2.2 "qr_0.png" (by decide) (by decide)⟩

/-! ### Claim C9

As stated the claim is false: a temporary QR file is created by
`open(qr_filename, "wb")` and only appended to the `qr_images` cleanup list
after `f.write(...)` returns, so a write failure in that window (e.g. disk
full) leaves a created file that no exit path removes.  The amended claim
quantifies over the files registered in the cleanup list. -/

/-- C9 counterexample: with one experiment and a fault injected during
`f.write` of row 0, the file `qr_0.png` was created during the request, the
request exits through the error path, and the file is still on disk
afterwards — so not every created temporary code-image file is removed. -/
theorem claim_c9_counterexample :
    "qr_0.png" ∈
      (run_generate data1 (Fault.writeQr 0) (fun _ => false) FS.emptyFS).created ∧
    (run_generate data1 (Fault.writeQr 0) (fun _ => false) FS.emptyFS).fs.hasFile
      "qr_0.png" = true ∧
    (run_generate data1 (Fault.writeQr 0) (fun _ => false) FS.emptyFS).outcome =
      Outcome.err 500 (errDetail (Fault.writeQr 0)) := by
  exact ⟨by decide, by decide, by decide⟩

/-- C9 (amended): on every exit path, success or failure, every temporary
code-image file registered in the `qr_images` cleanup list is removed
whenever its individual removal does not itself fail, and removal failures
are swallowed: the HTTP outcome is entirely independent of which removals
fail. -/
theorem claim_c9 (data : RecordData) (fault : Fault) (rf rf2 : String → Bool)
    (fs : FS) :
    (∀ f, f ∈ (run_generate data fault rf fs).tracked → rf f = false →
      (run_generate data fault rf fs).fs.hasFile f = false) ∧
    (run_generate data fault rf fs).outcome =
      (run_generate data fault rf2 fs).outcome := by
  constructor
  · intro f hmem hrf
    rcases run_generate_shape data fault rf fs with hsh | ⟨X, hsh⟩
    · rw [hsh] at hmem
      exact absurd hmem (List.not_mem_nil f)
    · rw [hsh]
      exact cleanup_removes hmem hrf
  · rw [run_generate_outcome, run_generate_outcome]

theorem claim_c9_witness :
    (run_generate data1 Fault.ok (fun _ => false) FS.emptyFS).fs.hasFile
      "qr_0.png" = false ∧
    (run_generate data1 Fault.ok (fun _ => false) FS.emptyFS).outcome =
      (run_generate data1 Fault.ok (fun _ => true) FS.emptyFS).outcome :=
  ⟨(claim_c9 data1 Fault.ok (fun _ => false) (fun _ => true) FS.emptyFS).1
      "qr_0.png" (by decide) rfl,
   (claim_c9 data1 Fault.ok (fun _ => false) (fun _ => true) FS.emptyFS).2⟩

end LabRecord
